import Mathlib

/-!
Verification development for the satfarm satellite-image processing wrapper.

The Python sources under `satfarm/` are embedded shallowly:

* pixel samples are idealized as exact rationals extended with an IEEE-style
  NaN value (`Val`); the numeric element type of an image is kept as a string
  tag (`dtype`).  Casting between element types (`numpy.astype`) is modelled
  as the identity on sample values, which coincides with the collaborator cast
  whenever source and target element types agree - the only situation arising
  in the theorems below;
* an `xarray.DataArray` raster is a `RasterImage`: a total sample function
  over (band, row, column) indices together with its dimensions, dimension
  names, CRS, affine transform, nodata metadata, element type tag and the
  band-coordinate labels (band aliases, stringified exactly as the code
  stringifies them with an f-string);
* a `SatImage` processor owns an optional raster, an operation log and an
  optional acquisition time (the `time` attribute is attached by callers; it
  is a plain rational timestamp here, standing for
  `datetime.timestamp()`);
* Python exceptions are explicit: mutating methods return
  `Option PyErr × SatImage` (the error, if any, together with the state the
  receiver is left in - Python exceptions do not roll mutations back), and
  producing operations return `Except PyErr _`;
* calls into the collaborator raster libraries (resampling, reprojection)
  are parameters of the embedded operations, so theorems quantify over them
  and state their hypotheses explicitly;
* the `@typechecked` decorator's return-type enforcement is modelled where
  it can fire: `merge`, whose resolvable `-> Self` annotation rejects the
  raw-array return of the single-input path.  Every other modelled method
  returns a processor instance (or a value matching its annotation), so the
  check passes and is omitted there.
-/

/-- Python exception kinds distinguished by the embedding.  `typeCheckError`
stands for `typeguard.TypeCheckError`, raised by the `@typechecked`
decorator when a return value violates the method's annotation. -/
inductive PyErr where
  | valueError
  | attributeError
  | typeError
  | typeCheckError
deriving DecidableEq, Repr

/-- A pixel sample: an exact rational or the IEEE NaN. -/
inductive Val where
  | nan
  | num (q : ℚ)
deriving DecidableEq, Repr

namespace Val

/-- `numpy` elementwise `!=` between two samples (NaN compares unequal to
everything, including itself). -/
def ieeeNe (a b : Val) : Bool :=
  match a, b with
  | num x, num y => decide (x ≠ y)
  | _, _ => true

/-- `numpy.isnan` on a sample. -/
def isnan (v : Val) : Bool :=
  match v with
  | nan => true
  | num _ => false

/-- IEEE addition of two samples, idealized over the rationals. -/
def add (a b : Val) : Val :=
  match a, b with
  | num x, num y => num (x + y)
  | _, _ => nan

/-- IEEE subtraction of two samples, idealized over the rationals. -/
def sub (a b : Val) : Val :=
  match a, b with
  | num x, num y => num (x - y)
  | _, _ => nan

/-- Multiplication of a sample by a rational scalar (NaN absorbs). -/
def mulQ (a : Val) (s : ℚ) : Val :=
  match a with
  | num x => num (x * s)
  | nan => nan

/-- The rational content of a sample (`0` for NaN; only used on lists first
checked to be NaN-free). -/
def toQ (v : Val) : ℚ :=
  match v with
  | num x => x
  | nan => 0

end Val

/-- A value stored in an operation-log record. -/
inductive LogVal where
  | str (s : String)
  | rat (q : ℚ)
  | natv (n : ℕ)
  | val (v : Val)
  | strList (l : List String)
  | noneV
deriving DecidableEq, Repr

/-- One record of the append-only operation log: an action name and its
parameters. -/
structure LogEntry where
  action : String
  params : List (String × LogVal) := []
deriving DecidableEq, Repr

/-- The embedded `xarray.DataArray` raster.  `data` is a total function on
(band, row, column); only indices below `nbands`/`rows`/`cols` are meaningful.
`bandAlias` lists the band-coordinate labels in band order. -/
structure RasterImage where
  nbands : ℕ
  rows : ℕ
  cols : ℕ
  data : ℕ → ℕ → ℕ → Val
  dims : List String
  crs : Option String
  transform : List ℚ
  nodata : Option Val
  dtype : String
  bandAlias : List String

/-- The embedded `SatImage` processor: at most one raster, an operation log,
and the optional acquisition time attached by callers (`set_time`). -/
structure SatImage where
  image : Option RasterImage
  log : List LogEntry
  time : Option ℚ := none

/-- The log entry written by `SatImage.__init__`. -/
def initEntry : LogEntry := { action := "initialize" }

/-- `SatImage()`: a fresh empty processor. -/
def SatImage.mk0 : SatImage := { image := none, log := [initEntry] }

/-- `add_log`: append one record to the processing log
(`_basic_ops.add_log`). -/
def add_log (s : SatImage) (e : LogEntry) : SatImage :=
  { s with log := s.log ++ [e] }

/-- The validity conditions of `SatImage.check_image_format` on a present
raster: the value is a `DataArray` (always true for an embedded raster), the
dimensions are `("band", "y", "x")`, and a CRS is defined. -/
def checkFormatB (img : RasterImage) : Bool :=
  (img.dims = ["band", "y", "x"] : Bool) && img.crs.isSome

/-- `SatImage.check_image_format` (`SatImage.py`, lines 68-101).  The three
checks are evaluated eagerly in source order; on an empty processor the
second check dereferences `self.image.dims` on `None` and raises
`AttributeError` before any result is produced. -/
def check_image_format (s : SatImage) (raise_error : Bool) : Except PyErr Bool :=
  match s.image with
  | none => .error .attributeError
  | some img =>
      if checkFormatB img then .ok true
      else if raise_error then .error .valueError
      else .ok false

/-- `get_band_alias` (`_attributes.py`): the stringified band coordinate
values. -/
def get_band_alias (s : SatImage) : Except PyErr (List String) :=
  match s.image with
  | none => .error .valueError
  | some img => .ok img.bandAlias

/-- `get_aoi` (`_attributes.py`) at one pixel: `True` when no nodata is set;
`~isnan(band0)` for NaN nodata; `band0 != nodata` otherwise. -/
def aoiAt (img : RasterImage) (y x : ℕ) : Bool :=
  match img.nodata with
  | none => true
  | some nd => if nd.isnan then !(img.data 0 y x).isnan else Val.ieeeNe (img.data 0 y x) nd

/-- The log record written by `set_band_alias`. -/
def sbaEntry (aliases : List String) : LogEntry :=
  { action := "set_band_alias", params := [("alias", .strList aliases)] }

/-- `set_band_alias` (`_basic_ops.py`, lines 330-363): rejects an alias list
whose length differs from the band count, otherwise reassigns the band
coordinate and logs. -/
def set_band_alias (s : SatImage) (aliases : List String) : Option PyErr × SatImage :=
  match s.image with
  | none => (some .valueError, s)
  | some img =>
      if aliases.length ≠ img.nbands then (some .valueError, s)
      else
        (none,
          add_log { s with image := some { img with bandAlias := aliases } }
            (sbaEntry aliases))

/-- The nodata argument of `change_nodata`: `None`, a single float, or a list
of floats. -/
inductive NodataArg where
  | noneA
  | single (v : Val)
  | listA (vs : List Val)

/-- Normalization at the top of `change_nodata`: a non-list argument becomes a
one-element list (so `None` becomes `[None]`). -/
def NodataArg.normalize (a : NodataArg) : List (Option Val) :=
  match a with
  | noneA => [none]
  | single v => [some v]
  | listA vs => vs.map some

/-- The AOI-mask accumulation loop of `change_nodata`: each old value
restricts the mask on band 0.  A `None` element falls back to the metadata
nodata; `np.isnan(None)` raises `TypeError` when that metadata is unset. -/
def changeNodataAoi (img : RasterImage) : List (Option Val) → (ℕ → ℕ → Bool) →
    Except PyErr (ℕ → ℕ → Bool)
  | [], aoi => .ok aoi
  | v :: rest, aoi =>
      match (match v with | none => img.nodata | some w => some w) with
      | none => .error .typeError
      | some w =>
          if w.isnan then
            changeNodataAoi img rest (fun y x => aoi y x && !(img.data 0 y x).isnan)
          else
            changeNodataAoi img rest (fun y x => aoi y x && Val.ieeeNe (img.data 0 y x) w)

/-- The raster update of `change_nodata`: `self.image.data[:, ~aoi] = new`
followed by `write_nodata(new, inplace=True)`. -/
def cnApply (img : RasterImage) (aoi : ℕ → ℕ → Bool) (new_nodata : Val) : RasterImage :=
  { img with
    data := fun b y x => if aoi y x then img.data b y x else new_nodata,
    nodata := some new_nodata }

/-- `change_nodata` (`_basic_ops.py`, lines 96-137): builds the old-value AOI
mask from band 0, overwrites every band at excluded pixels with the new
value, updates the nodata metadata and logs. -/
def change_nodata (s : SatImage) (new_nodata : Val) (old_nodata : NodataArg) :
    Option PyErr × SatImage :=
  match s.image with
  | none => (some .valueError, s)
  | some img =>
      match changeNodataAoi img old_nodata.normalize (fun _ _ => true) with
      | .error e => (some e, s)
      | .ok aoi =>
          (none,
            add_log { s with image := some (cnApply img aoi new_nodata) }
              { action := "change_nodata", params := [("new_nodata", .val new_nodata)] })

/-- `reproject` (`_basic_ops.py`, lines 234-260).  `rp` is the collaborator
resampling call `self.image.rio.reproject(crs)`.  The wrapper validation only
compares the first four characters of `crs` with `"EPSG"`, although its error
message demands the prefix `"EPSG:"`. -/
def reproject (rp : RasterImage → String → RasterImage) (s : SatImage) (crs : String) :
    Option PyErr × SatImage :=
  match s.image with
  | none => (some .valueError, s)
  | some img =>
      if crs.take 4 ≠ "EPSG" then (some .valueError, s)
      else
        (none,
          add_log { s with image := some (rp img crs) }
            { action := "reproject", params := [("crs", .str crs)] })

/-- The member names of `rasterio.enums.Resampling`. -/
def resamplingMembers : List String :=
  ["nearest", "bilinear", "cubic", "cubic_spline", "lanczos", "average", "mode",
   "gauss", "max", "min", "med", "q1", "q3", "sum", "rms"]

/-- The resized raster of `rescale`: the requested shape is
`(int(np.ceil(height / factor)), int(np.ceil(width / factor)))` and the sample
content comes from the collaborator resampling call. -/
def rescaleImg (resample : RasterImage → ℕ × ℕ → String → ℕ → ℕ → ℕ → Val)
    (img : RasterImage) (factor : ℚ) (resampling : String) : RasterImage :=
  { img with
    rows := Int.toNat ⌈(img.rows : ℚ) / factor⌉,
    cols := Int.toNat ⌈(img.cols : ℚ) / factor⌉,
    data := resample img
      (Int.toNat ⌈(img.rows : ℚ) / factor⌉, Int.toNat ⌈(img.cols : ℚ) / factor⌉) resampling }

/-- `rescale` (`_basic_ops.py`, lines 262-301).  `resample` is the collaborator
call `self.image.rio.reproject(crs, shape=new_shape, resampling=...)`, which
returns a raster of exactly the requested shape; its sample content is left
abstract.  A factor of `1` returns immediately (before the resampling-method
check and without logging). -/
def rescale (resample : RasterImage → ℕ × ℕ → String → ℕ → ℕ → ℕ → Val)
    (s : SatImage) (factor : ℚ) (resampling : String) : Option PyErr × SatImage :=
  match s.image with
  | none => (some .valueError, s)
  | some img =>
      if factor = 1 then (none, s)
      else if resampling ∉ resamplingMembers then (some .valueError, s)
      else
        (none,
          add_log { s with image := some (rescaleImg resample img factor resampling) }
            { action := "rescale", params := [("rescale", .rat factor), ("resampling", .str resampling)] })

/-- One in-place band multiplication of `apply_scale_factor`
(`self.image.loc[dict(band=alias)] *= sf`): every band whose label equals the
alias is scaled. -/
def scaleBand (img : RasterImage) (a : String) (f : ℚ) : RasterImage :=
  { img with data := fun b y x =>
      if img.bandAlias.getD b "" = a then Val.mulQ (img.data b y x) f
      else img.data b y x }

/-- The per-entry loop of `apply_scale_factor`: multiply the named band in
place, or raise on an unknown alias, leaving earlier multiplications
applied. -/
def applyScaleLoop : SatImage → List (String × ℚ) → Option PyErr × SatImage
  | s, [] => (none, s)
  | s, (a, f) :: rest =>
      match s.image with
      | none => (some .valueError, s)
      | some img =>
          if a ∈ img.bandAlias then
            applyScaleLoop { s with image := some (scaleBand img a f) } rest
          else (some .valueError, s)

/-- `apply_scale_factor` (`_advanced_ops.py`, lines 31-64): iterates the
mapping in insertion order, multiplying bands in place; the log record is
appended only after the whole loop succeeds. -/
def apply_scale_factor (s : SatImage) (scale_factor : List (String × ℚ)) :
    Option PyErr × SatImage :=
  match s.image with
  | none => (some .valueError, s)
  | some _ =>
      match applyScaleLoop s scale_factor with
      | (some e, s1) => (some e, s1)
      | (none, s1) => (none, add_log s1 { action := "apply_scale_factor" })

/-- `copy` (`_export.py`): a fresh processor loaded with a copy of the raster
(`read_tif` re-validates the format, raising on failure), carrying a copy of
the source log with a `"copy"` record appended.  The `time` attribute is not
copied. -/
def SatImage.copy (s : SatImage) : Except PyErr SatImage :=
  match s.image with
  | none => .error .valueError
  | some img =>
      if checkFormatB img then
        .ok { image := some img, log := s.log ++ [{ action := "copy" }], time := none }
      else .error .valueError

/-- The result of `merge`: either the receiver mutated into the merged image,
a fresh empty processor (no non-empty input), or the single non-empty input's
underlying raster array returned as-is. -/
inductive MergeRet where
  | satimage (s : SatImage)
  | dataArray (img : RasterImage)

/-- The `enumerate(image.band.values)` view of one (reprojected) input of
`merge`: its band labels paired with their sample planes, in band order.
Each plane is cast by `astype(dtype)`, the identity under the exact value
semantics of this embedding. -/
def imagePlanes (ri : RasterImage) : List (String × (ℕ → ℕ → Val)) :=
  (List.range ri.nbands).map (fun bi => (ri.bandAlias.getD bi "", fun y x => ri.data bi y x))

/-- The inner band loop of `merge`: appends each band of one input to the
collection, raising as soon as a band alias was already collected. -/
def collectLoop : List (String × (ℕ → ℕ → Val)) → List (String × (ℕ → ℕ → Val)) →
    Except PyErr (List (String × (ℕ → ℕ → Val)))
  | acc, [] => .ok acc
  | acc, p :: rest =>
      if p.1 ∈ acc.map Prod.fst then .error .valueError
      else collectLoop (acc ++ [p]) rest

/-- The band-collection loop of `merge`: each input is reprojected onto the
backbone by the collaborator call `rm` (`image.rio.reproject_match`), then
its bands are appended in order through `collectLoop`. -/
def collectBands (rm : RasterImage → RasterImage → RasterImage) (bb : RasterImage)
    (dtype : String) : List RasterImage → List (String × (ℕ → ℕ → Val)) →
    Except PyErr (List (String × (ℕ → ℕ → Val)))
  | [], acc => .ok acc
  | i :: rest, acc =>
      match collectLoop acc (imagePlanes (rm i bb)) with
      | .error e => .error e
      | .ok acc2 => collectBands rm bb dtype rest acc2

/-- The multi-band raster assembled by `merge` from the collected bands
(`ds.to_array(dim="band")`) on the backbone grid. -/
def mergedImage (bands : List (String × (ℕ → ℕ → Val))) (bb : RasterImage)
    (dtype : String) : RasterImage :=
  { nbands := bands.length, rows := bb.rows, cols := bb.cols,
    data := fun b y x => (bands.getD b ("", fun _ _ => Val.nan)).2 y x,
    dims := ["band", "y", "x"], crs := bb.crs, transform := bb.transform,
    nodata := none, dtype := dtype,
    bandAlias := bands.map Prod.fst }

/-- The body of `merge` (`_io.py`, lines 106-144), before the decorator's
return check.  Empty inputs are dropped; with no remaining image the body
evaluates to a fresh empty processor, with exactly one to the underlying
raster array itself (in both cases the receiver is untouched).  Otherwise
bands are collected over the backbone (default: the first image), the
receiver's raster is replaced, band aliases reassigned and the merge logged.
The `write_crs`/`write_transform`/`write_nodata` calls on the merged array
are not in-place and thus have no effect; the CRS and transform of the
result come from the backbone grid shared by every reprojected component,
and no nodata metadata survives `Dataset.to_array`. -/
def mergeBody (rm : RasterImage → RasterImage → RasterImage) (self : SatImage)
    (satimages : List SatImage) (backbone : Option RasterImage) (dtype : String)
    (nodata : Val) : Except PyErr (MergeRet × SatImage) :=
  match satimages.filterMap (fun si => si.image) with
  | [] => .ok (.satimage SatImage.mk0, self)
  | [i] => .ok (.dataArray i, self)
  | i0 :: i1 :: rest =>
      let bb := backbone.getD i0
      match collectBands rm bb dtype (i0 :: i1 :: rest) [] with
      | .error e => .error e
      | .ok bands =>
          let s1 : SatImage := { self with image := some (mergedImage bands bb dtype) }
          match set_band_alias s1 (bands.map Prod.fst) with
          | (some e, _) => .error e
          | (none, s2) =>
              let s3 := add_log s2
                { action := "merge", params := [("dtype", .str dtype), ("nodata", .val nodata)] }
              .ok (.satimage s3, s3)

/-- `merge` as callable (`_io.py`, lines 73-144): the body wrapped in the
`@typechecked` enforcement of the resolvable `-> Self` return annotation.
A processor return passes through; the raw `DataArray` return of the
single-non-empty-input path violates the annotation, so typeguard raises
`TypeCheckError` and the array is never delivered to the caller (the
receiver, never reassigned on that path, keeps its state).  Exceptions from
the body propagate unchanged. -/
def merge (rm : RasterImage → RasterImage → RasterImage) (self : SatImage)
    (satimages : List SatImage) (backbone : Option RasterImage) (dtype : String)
    (nodata : Val) : Except PyErr (MergeRet × SatImage) :=
  match mergeBody rm self satimages backbone dtype nodata with
  | .error e => .error e
  | .ok (.dataArray _, _) => .error .typeCheckError
  | .ok r => .ok r

/-- Python `round` (banker's rounding, half to even) on an exact rational. -/
def roundHalfEven (q : ℚ) : ℤ :=
  let f := ⌊q⌋
  let r := q - (f : ℚ)
  if r < 1 / 2 then f
  else if 1 / 2 < r then f + 1
  else if f % 2 = 0 then f else f + 1

/-- `round(x, digits)`: Python rounding to a number of decimal places. -/
def pyRound (q : ℚ) (digits : ℕ) : ℚ :=
  (roundHalfEven (q * 10 ^ digits) : ℚ) / 10 ^ digits

/-- The AOI pixel positions of an image, in row-major order. -/
def aoiList (img : RasterImage) : List (ℕ × ℕ) :=
  (List.range img.rows).flatMap
    (fun y => (List.range img.cols).filterMap
      (fun x => if aoiAt img y x then some (y, x) else none))

/-- The AOI pixel count of an image (`int(np.sum(aoi))`). -/
def aoiCount (img : RasterImage) : ℕ := (aoiList img).length

/-- The samples of one band restricted to the AOI (`band_arr[aoi]`). -/
def bandVals (img : RasterImage) (bi : ℕ) : List Val :=
  (aoiList img).map (fun p => img.data bi p.1 p.2)

/-- `round(float(np.mean(band_pix)), 3)` of `calculate_band_stats`: the
AOI-restricted mean of one band; NaN when the restriction is empty or
contains a NaN sample (as `np.mean` propagates). -/
def bandMeanVal (img : RasterImage) (bi : ℕ) : Val :=
  let vs := bandVals img bi
  if vs.contains Val.nan then Val.nan
  else if vs.length = 0 then Val.nan
  else Val.num (pyRound ((vs.foldl (fun a v => a + v.toQ) 0) / (vs.length : ℚ)) 3)

/-- The per-band mean table of `calculate_band_stats` as consumed by
`interp_image` (`stats[alias]["mean"]`), modelled as a lookup function on the
band label.  On an image with bands but an empty AOI the statistics loop
raises at `np.min` (zero-size reduction) before any row is produced. -/
def imageStats (img : RasterImage) : Except PyErr (String → Val) :=
  if img.bandAlias ≠ [] ∧ aoiCount img = 0 then .error .valueError
  else .ok (fun a => bandMeanVal img (img.bandAlias.indexOf a))

/-- `np.interp(x, xp, fp)` for increasing sample points `xp`, with NaN
propagation through the affine formula: clamps to the first/last table value
outside the range, interpolates linearly inside. -/
def npInterpV (x : ℚ) : List ℚ → List Val → Val
  | [], _ => Val.nan
  | [_], f0 :: _ => f0
  | [_], [] => Val.nan
  | x0 :: x1 :: xs, f0 :: f1 :: fs =>
      if x ≤ x0 then f0
      else if x < x1 then Val.add f0 (Val.mulQ (Val.sub f1 f0) ((x - x0) / (x1 - x0)))
      else npInterpV x (x1 :: xs) (f1 :: fs)
  | _ :: _, _ => Val.nan

/-- The ordering key of `sorted(simages, key=lambda simage: simage.time)`. -/
def timeLe (a b : SatImage) : Prop := a.time.getD 0 ≤ b.time.getD 0

instance : DecidableRel timeLe :=
  fun a b => inferInstanceAs (Decidable (a.time.getD 0 ≤ b.time.getD 0))

/-- Attribute access `simage.image.band` / `simage.image.dtype` on a
processor: raises `AttributeError` on an empty one (`None` has no such
attribute). -/
def getImg (s : SatImage) : Except PyErr RasterImage :=
  match s.image with
  | none => .error .attributeError
  | some img => .ok img

/-- Effectful `map` over a list in the `Except` monad, with explicit
equations for symbolic evaluation. -/
def mapME (f : α → Except PyErr β) : List α → Except PyErr (List β)
  | [] => .ok []
  | a :: rest =>
      match f a with
      | .error e => .error e
      | .ok b =>
          match mapME f rest with
          | .error e => .error e
          | .ok bs => .ok (b :: bs)

/-- The per-band adjustment loop of `interp_image`: for each band label, the
difference between the target's interpolated mean and the reference image's
own mean is added in place to the pixels of that band that differ from the
nodata metadata (`value_arr != nodata`: elementwise all-true when the
metadata is NaN or unset).  The trailing `astype`/`.sel(...).data = ...`
lines of the source act on a temporary selection and leave the raster
untouched. -/
def applyOffsetBand (dst base : String → Val) (im : RasterImage) (a : String) :
    RasterImage :=
  let bi := im.bandAlias.indexOf a
  let offset := Val.sub (dst a) (base a)
  let keep : ℕ → ℕ → Bool := fun y x =>
    match im.nodata with
    | none => true
    | some nd => Val.ieeeNe (im.data bi y x) nd
  { im with data := fun b y x =>
      if b = bi ∧ keep y x then Val.add (im.data b y x) offset
      else im.data b y x }

/-- The full per-band adjustment pass of `interp_image` over the band-label
list. -/
def applyOffsets (aliases : List String) (dst base : String → Val)
    (img : RasterImage) : RasterImage :=
  aliases.foldl (applyOffsetBand dst base) img

/-- Builds one interpolated output of `interp_image`: a copy of the reference
image, retimed to the target, with every band shifted by the interpolated
mean offset. -/
def makeTarget (base : SatImage) (aliases : List String) (baseSt : String → Val)
    (t : ℚ) (dstSt : String → Val) : Except PyErr SatImage :=
  match base.copy with
  | .error e => .error e
  | .ok c =>
      match c.image with
      | none => .error .valueError
      | some img =>
          .ok { c with time := some t, image := some (applyOffsets aliases dstSt baseSt img) }

/-- `interp_image` (`operation/fusion.py`, lines 16-118; identical code in
`fusion.py`, lines 7-70).  Inputs are sorted by time (comparing a missing
`None` time raises `TypeError` as soon as two inputs are involved), checked
for identical band labels, identical element types and present times; then
per-image per-band AOI means are tabled, interpolated to each target
timestamp, and each output is the most-recent image shifted per band by the
interpolated-minus-reference mean difference.  The target list stands for the
already-normalized `time` argument. -/
def interp_image (simages : List SatImage) (times : List ℚ) :
    Except PyErr (List SatImage) :=
  if 2 ≤ simages.length ∧ simages.any (fun s => s.time.isNone) then .error .typeError
  else
    let sorted := List.insertionSort timeLe simages
    match mapME getImg sorted with
    | .error e => .error e
    | .ok imgs =>
        let bal := imgs.map (fun i => i.bandAlias)
        let dtypes := imgs.map (fun i => i.dtype)
        let stimes := sorted.map (fun s => s.time)
        if bal.dedup.length ≠ 1 then .error .valueError
        else if dtypes.dedup.length ≠ 1 then .error .valueError
        else if stimes.contains none then .error .valueError
        else
          let aliases := bal.headD []
          match mapME imageStats imgs with
          | .error e => .error e
          | .ok refStats =>
              let timestamps := sorted.map (fun s => s.time.getD 0)
              let baseIm := sorted.getLastD SatImage.mk0
              let baseSt := refStats.getLastD (fun _ => Val.nan)
              mapME
                (fun t => makeTarget baseIm aliases baseSt t
                  (fun a => npInterpV t timestamps (refStats.map (fun st => st a))))
                times

/-- A heap of Python list objects for the operation logs.  `generate_backbone`
hands the very list object of the source processor to the new one
(`set_log(self.log)`, no copy), so log mutation must be modelled through
references: `logs` maps a reference to the list it currently holds, `next` is
the next fresh reference. -/
structure Store where
  logs : ℕ → List LogEntry
  next : ℕ

/-- Allocate a fresh list object holding `l`. -/
def Store.alloc (σ : Store) (l : List LogEntry) : ℕ × Store :=
  (σ.next, { logs := fun r => if r = σ.next then l else σ.logs r, next := σ.next + 1 })

/-- `list.append` on the list object behind reference `r`. -/
def Store.push (σ : Store) (r : ℕ) (e : LogEntry) : Store :=
  { σ with logs := fun r2 => if r2 = r then σ.logs r ++ [e] else σ.logs r2 }

/-- A processor in the heap model: the raster, a reference to its log list
object, and the optional time attribute. -/
structure HSatImage where
  image : Option RasterImage
  logRef : ℕ
  time : Option ℚ := none

/-- `SatImage()` in the heap model: allocates a fresh log list. -/
def initH (σ : Store) : HSatImage × Store :=
  let p := σ.alloc [initEntry]
  ({ image := none, logRef := p.1 }, p.2)

/-- `read_tif` with an already-constructed `DataArray` argument (`_io.py`,
lines 64-70): stores the raster, appends the read record to the processor's
own log object, then validates the format with `raise_error=True`. -/
def read_tifH (σ : Store) (s : HSatImage) (file : RasterImage) :
    Except PyErr (HSatImage × Store) :=
  let s2 : HSatImage := { s with image := some file }
  let σ2 := σ.push s.logRef
    { action := "read_tif", params := [("file", .str "rioxarray object")] }
  if checkFormatB file then .ok (s2, σ2) else .error .valueError

/-- `set_log` (`_basic_ops.py`): rebinds `self.log` to the given list object -
the reference is shared, not copied. -/
def set_logH (s : HSatImage) (r : ℕ) : HSatImage := { s with logRef := r }

/-- `add_log` in the heap model: appends to the list object the processor
currently references. -/
def add_logH (σ : Store) (s : HSatImage) (e : LogEntry) : Store := σ.push s.logRef e

/-- The constant-filled template raster of `generate_backbone`: the source
grid and CRS, `n` bands labelled `"1".."n"`, every sample equal to the fill
value. -/
def gbRaster (img : RasterImage) (n : ℕ) (pixel_dtype : String) (fill nodata : Val) :
    RasterImage :=
  { nbands := n, rows := img.rows, cols := img.cols,
    data := fun _ _ _ => fill, dims := ["band", "y", "x"],
    crs := img.crs, transform := img.transform, nodata := some nodata,
    dtype := pixel_dtype,
    bandAlias := (List.range n).map (fun i => toString (i + 1)) }

/-- The log record written by `generate_backbone` (with the resolved band
count, logged after the `nbands == 0` default is substituted). -/
def gbEntry (n : ℕ) (pixel_dtype : String) (fill nodata : Val) : LogEntry :=
  { action := "generate_backbone",
    params := [("nbands", .natv n), ("pixel_dtype", .str pixel_dtype),
               ("fill_value", .val fill), ("nodata", .val nodata)] }

/-- `generate_backbone` (`_advanced_ops.py`, lines 66-120): builds a
constant-filled raster on the source grid (band labels `"1".."n"`, the
source CRS written via the returned-copy idiom, the nodata written in
place), loads it into a fresh processor, then rebinds that processor's log to
the source's log object and appends the `generate_backbone` record - which
therefore lands in the source processor's log as well. -/
def generate_backboneH (σ : Store) (src : HSatImage) (nbands : ℕ)
    (pixel_dtype : String) (fill nodata : Val) : Except PyErr (HSatImage × Store) :=
  match src.image with
  | none => .error .valueError
  | some img =>
      let n := if nbands = 0 then img.nbands else nbands
      let p := initH σ
      match read_tifH p.2 p.1 (gbRaster img n pixel_dtype fill nodata) with
      | .error e => .error e
      | .ok (s1, σ2) =>
          let s2 := set_logH s1 src.logRef
          let σ3 := add_logH σ2 s2 (gbEntry n pixel_dtype fill nodata)
          .ok (s2, σ3)

/-- `set_band_alias` in the heap model. -/
def set_band_aliasH (σ : Store) (s : HSatImage) (aliases : List String) :
    Except PyErr (HSatImage × Store) :=
  match s.image with
  | none => .error .valueError
  | some img =>
      if aliases.length ≠ img.nbands then .error .valueError
      else
        .ok ({ s with image := some { img with bandAlias := aliases } },
          add_logH σ s (sbaEntry aliases))

/-- The value of one `eval(eq)` band-math expression: a function of the band
dictionary `B` (`B i` is the plane of 1-based band `i` of the source) to the
resulting plane.  The source text of the equation is not tracked. -/
def ExprFn : Type := (ℕ → ℕ → ℕ → Val) → ℕ → ℕ → Val

/-- The log record written for each yielded index image. -/
def calcEntry (a : String) : LogEntry :=
  { action := "calculate_index", params := [("alias", .str a)] }

/-- The log records that one full run of `calculate_index` appends to the
shared source log: per equation, the backbone generation, the index
calculation and the band renaming. -/
def calcEntries (eqs : List (String × ExprFn)) : List LogEntry :=
  eqs.flatMap (fun p => [gbEntry 1 "float32" Val.nan Val.nan, calcEntry p.1, sbaEntry [p.1]])

/-- The loop body of `calculate_index` over the equation mapping (in
insertion order): each iteration materializes a one-band NaN backbone -
whose log is the source's log object - writes the evaluated expression into
band 0, logs the calculation and renames the band. -/
def calcIndexLoop (σ : Store) (src : HSatImage) (img : RasterImage) :
    List (String × ExprFn) → Except PyErr (List HSatImage × Store)
  | [] => .ok ([], σ)
  | (a, ef) :: rest =>
      match generate_backboneH σ src 1 "float32" Val.nan Val.nan with
      | .error e => .error e
      | .ok (s0, σ1) =>
          let B : ℕ → ℕ → ℕ → Val := fun i y x => img.data (i - 1) y x
          let s1 : HSatImage :=
            { s0 with image := s0.image.map (fun im =>
                { im with data := fun b y x => if b = 0 then ef B y x else im.data b y x }) }
          let σ2 := add_logH σ1 s1 (calcEntry a)
          match set_band_aliasH σ2 s1 [a] with
          | .error e => .error e
          | .ok (s2, σ3) =>
              match calcIndexLoop σ3 src img rest with
              | .error e => .error e
              | .ok (out, σ4) => .ok (s2 :: out, σ4)

/-- `calculate_index` (`_advanced_ops.py`, lines 122-166), with the generator
run to completion: the list of yielded single-band processors and the final
heap. -/
def calculate_indexH (σ : Store) (src : HSatImage) (eqs : List (String × ExprFn)) :
    Except PyErr (List HSatImage × Store) :=
  match src.image with
  | none => .error .valueError
  | some img => calcIndexLoop σ src img eqs

/-- A concrete valid raster on the standard grid used by the closed test
instances below. -/
def mkFix (nb r c : ℕ) (d : ℕ → ℕ → ℕ → Val) (nd : Option Val) (al : List String) :
    RasterImage :=
  { nbands := nb, rows := r, cols := c, data := d, dims := ["band", "y", "x"],
    crs := some "EPSG:4326", transform := [30, 0, 0, 0, -30, 0], nodata := nd,
    dtype := "float32", bandAlias := al }

/-- A 2-band 2x2 raster whose band-0 plane contains one zero pixel. -/
def fixImgA : RasterImage :=
  mkFix 2 2 2
    (fun b y x =>
      if b = 0 ∧ y = 0 ∧ x = 0 then Val.num 0
      else if b = 0 then Val.num 2
      else Val.num 7)
    (some (Val.num 0)) ["B1", "B2"]

/-- A loaded processor holding `fixImgA`. -/
def fixA : SatImage := { image := some fixImgA, log := [initEntry] }

/-- `fixImgA` with its CRS removed (an invalid but present raster). -/
def fixImgNoCrs : RasterImage := { fixImgA with crs := none }

/-- A single-band 1x1 raster labelled `"a"`. -/
def fixImgB : RasterImage := mkFix 1 1 1 (fun _ _ _ => Val.num 3) (some (Val.num 0)) ["a"]

/-- A single-band 1x1 raster labelled `"b"` on the same grid as `fixImgB`. -/
def fixImgC : RasterImage := mkFix 1 1 1 (fun _ _ _ => Val.num 7) (some (Val.num 0)) ["b"]

/-- A processor holding `fixImgB`. -/
def fixB : SatImage := { image := some fixImgB, log := [initEntry] }

/-- A processor holding `fixImgC`. -/
def fixC : SatImage := { image := some fixImgC, log := [initEntry] }

/-- A single-band 1x1 raster with the sample 5 (nodata 0), acquired first. -/
def fixImgT0 : RasterImage := mkFix 1 1 1 (fun _ _ _ => Val.num 5) (some (Val.num 0)) ["B1"]

/-- A single-band 1x1 raster with the sample 9 (nodata 0), acquired second. -/
def fixImgT1 : RasterImage := mkFix 1 1 1 (fun _ _ _ => Val.num 9) (some (Val.num 0)) ["B1"]

/-- The earlier interpolation input (time 0). -/
def fixT0 : SatImage := { image := some fixImgT0, log := [initEntry], time := some 0 }

/-- The later interpolation input (time 1). -/
def fixT1 : SatImage := { image := some fixImgT1, log := [initEntry], time := some 1 }

/-- A single-band 1x1 raster every pixel of which equals its nodata value 0 -
its AOI is empty. -/
def cxImgZ : RasterImage := mkFix 1 1 1 (fun _ _ _ => Val.num 0) (some (Val.num 0)) ["B1"]

/-- An all-nodata interpolation input at time 0. -/
def cxP0 : SatImage := { image := some cxImgZ, log := [initEntry], time := some 0 }

/-- An all-nodata interpolation input at time 1. -/
def cxP1 : SatImage := { image := some cxImgZ, log := [initEntry], time := some 1 }

/-- Modelled from the spec: a "recognized identifier string" for `reproject`,
read off the spec sentence together with the code's own error message
(`"crs should be a string starting with 'EPSG:'"`): a string carrying the
`"EPSG:"` prefix. -/
def recognizedCrsSpec (crs : String) : Bool := crs.take 5 = "EPSG:"

/-- An initial heap for the log-aliasing instances: one live list object,
reference 0. -/
def fixStore : Store := { logs := fun _ => [initEntry], next := 1 }

/-- A heap-model processor holding `fixImgA` whose log is the list object at
reference 0. -/
def fixHSrc : HSatImage := { image := some fixImgA, logRef := 0 }

/-!  ## Theorems  -/

/-- C4 (code bug): `check_image_format(raise_error=False)` is claimed - and
documented in the method's own docstring - to return a boolean in every
state, `False` on any invalid one including the empty state.  On the empty
processor the code instead raises `AttributeError` while evaluating
`self.image.dims` on `None`.  On states with a raster present it does return
`True` exactly for a (band, y, x)-ordered array with a CRS, and `False`
otherwise without raising. -/
theorem c4_check_image_format_empty_raises :
    check_image_format SatImage.mk0 false = .error .attributeError ∧
    check_image_format fixA false = .ok true ∧
    check_image_format { image := some fixImgNoCrs, log := [initEntry] } false = .ok false := by
  refine ⟨rfl, ?_, rfl⟩
  rfl

/-- C7: on a non-empty image, `set_band_alias` with a list of matching length
followed by `get_band_alias` returns exactly that list; with a mismatched
length it raises `ValueError` and leaves the whole processor (hence the band
aliases) unchanged. -/
theorem c7_set_get_band_alias (s : SatImage) (img : RasterImage) (a : List String)
    (hs : s.image = some img) :
    (a.length = img.nbands →
      (set_band_alias s a).1 = none ∧ get_band_alias (set_band_alias s a).2 = .ok a) ∧
    (a.length ≠ img.nbands → set_band_alias s a = (some .valueError, s)) := by
  constructor
  · intro h
    simp [set_band_alias, hs, h, get_band_alias, add_log]
  · intro h
    simp [set_band_alias, hs, h]

/-- Closed instance of `c7_set_get_band_alias` on the 2-band fixture. -/
theorem c7_set_get_band_alias_witness :
    (get_band_alias (set_band_alias fixA ["red", "nir"]).2 = .ok ["red", "nir"]) ∧
    (set_band_alias fixA ["red"] = (some .valueError, fixA)) :=
  ⟨((c7_set_get_band_alias fixA fixImgA ["red", "nir"] rfl).1 (by decide)).2,
   (c7_set_get_band_alias fixA fixImgA ["red"] rfl).2 (by decide)⟩

/-- C5 (amended): on a non-empty image, `reproject(crs)` raises its
validation error if and only if the first four characters of `crs` differ
from `"EPSG"` - the colon demanded by its own error message is not checked -
and when it raises, the processor (raster and transform included) is left
unchanged. -/
theorem c5_reproject_prefix_check (rp : RasterImage → String → RasterImage)
    (s : SatImage) (img : RasterImage) (crs : String) (hs : s.image = some img) :
    ((reproject rp s crs).1 = some .valueError ↔ crs.take 4 ≠ "EPSG") ∧
    (crs.take 4 ≠ "EPSG" → reproject rp s crs = (some .valueError, s)) := by
  unfold reproject
  rw [hs]
  by_cases h : crs.take 4 = "EPSG" <;> simp [h]

/-- Closed instance of `c5_reproject_prefix_check`. -/
theorem c5_reproject_prefix_check_witness :
    ((reproject (fun i _ => i) fixA "OGC:CRS84").1 = some .valueError ↔
      ("OGC:CRS84").take 4 ≠ "EPSG") ∧
    (("OGC:CRS84").take 4 ≠ "EPSG" →
      reproject (fun i _ => i) fixA "OGC:CRS84" = (some .valueError, fixA)) :=
  c5_reproject_prefix_check (fun i _ => i) fixA fixImgA "OGC:CRS84" rfl

/-- C5 counterexample: the claim says the validation error fires exactly on
strings that are not recognized CRS identifiers.  `"EPSG4326"` is not a
recognized identifier (it lacks the `"EPSG:"` prefix the code's own error
message demands), yet `reproject` accepts it without any validation error
and proceeds to the collaborator call. -/
theorem c5_counterexample :
    recognizedCrsSpec "EPSG4326" = false ∧
    (reproject (fun i _ => i) fixA "EPSG4326").1 = none := by
  exact ⟨rfl, rfl⟩


/-- C6: on a non-empty image and a positive factor, `rescale` is the
identity on the whole processor state (raster, metadata and log) when the
factor is 1; with any other factor it raises a validation error on an
unknown resampling method (leaving the state unchanged), and with a known
method it succeeds with the new height and width set to the ceilings of the
original dimensions divided by the factor. -/
theorem c6_rescale_dims (resample : RasterImage → ℕ × ℕ → String → ℕ → ℕ → ℕ → Val)
    (s : SatImage) (img : RasterImage) (factor : ℚ) (method : String)
    (hs : s.image = some img) (_hf : 0 < factor) :
    (factor = 1 → rescale resample s factor method = (none, s)) ∧
    (factor ≠ 1 → method ∉ resamplingMembers →
      rescale resample s factor method = (some .valueError, s)) ∧
    (factor ≠ 1 → method ∈ resamplingMembers →
      (rescale resample s factor method).1 = none ∧
      ∃ img2, (rescale resample s factor method).2.image = some img2 ∧
        img2.rows = Int.toNat ⌈(img.rows : ℚ) / factor⌉ ∧
        img2.cols = Int.toNat ⌈(img.cols : ℚ) / factor⌉) := by
  refine ⟨fun h1 => ?_, fun h1 h2 => ?_, fun h1 h2 => ⟨?_, ?_⟩⟩
  · simp [rescale, hs, h1]
  · simp [rescale, hs, h1, h2]
  · simp [rescale, hs, h1, h2]
  · exact ⟨rescaleImg resample img factor method,
      by simp [rescale, hs, h1, h2, add_log], rfl, rfl⟩

/-- Closed instance of `c6_rescale_dims` on the 2x2 fixture with factor 2. -/
theorem c6_rescale_dims_witness :
    (rescale (fun i _ _ => i.data) fixA 1 "bilinear" = (none, fixA)) ∧
    (rescale (fun i _ _ => i.data) fixA 2 "sinc" = (some .valueError, fixA)) ∧
    ((rescale (fun i _ _ => i.data) fixA 2 "bilinear").1 = none) :=
  ⟨(c6_rescale_dims (fun i _ _ => i.data) fixA fixImgA 1 "bilinear" rfl (by decide)).1 rfl,
   (c6_rescale_dims (fun i _ _ => i.data) fixA fixImgA 2 "sinc" rfl (by decide)).2.1
     (by decide) (by decide),
   ((c6_rescale_dims (fun i _ _ => i.data) fixA fixImgA 2 "bilinear" rfl (by decide)).2.2
     (by decide) (by decide)).1⟩

/-- C10: `apply_scale_factor` is not atomic on failure - with a mapping
holding a known alias before an unknown one, the call raises the
unknown-alias `ValueError` only after the known band has been multiplied in
place: the state left behind carries the multiplied band (all bands whose
label equals the known alias scaled by the factor, everything else
untouched), and hence differs from the state before the call whenever the
multiplication changes some sample of that band. -/
theorem c10_apply_scale_factor_not_atomic (s : SatImage) (img : RasterImage)
    (a u : String) (f g : ℚ) (hs : s.image = some img)
    (ha : a ∈ img.bandAlias) (hu : u ∉ img.bandAlias) :
    (apply_scale_factor s [(a, f), (u, g)]).1 = some .valueError ∧
    ((apply_scale_factor s [(a, f), (u, g)]).2.image = some (scaleBand img a f) ∧
      ∀ b y x, (scaleBand img a f).data b y x =
        if img.bandAlias.getD b "" = a then Val.mulQ (img.data b y x) f
        else img.data b y x) ∧
    (∀ b y x, img.bandAlias.getD b "" = a → Val.mulQ (img.data b y x) f ≠ img.data b y x →
      (apply_scale_factor s [(a, f), (u, g)]).2 ≠ s) := by
  have hrun : apply_scale_factor s [(a, f), (u, g)] =
      (some .valueError, { s with image := some (scaleBand img a f) }) := by
    simp [apply_scale_factor, applyScaleLoop, hs, ha, hu, scaleBand]
  refine ⟨by rw [hrun], ⟨by rw [hrun], fun b y x => rfl⟩, ?_⟩
  intro b y x hb hne heq
  rw [hrun] at heq
  have himg : some (scaleBand img a f) = s.image := congrArg SatImage.image heq
  rw [hs] at himg
  have himg2 : scaleBand img a f = img := Option.some.inj himg
  have hd := congrFun (congrFun (congrFun (congrArg RasterImage.data himg2) b) y) x
  have hsb : (scaleBand img a f).data b y x = Val.mulQ (img.data b y x) f := by
    simp only [scaleBand]
    rw [if_pos hb]
  rw [hsb] at hd
  exact hne hd

/-- The doubling of the sample 2 at band 0, pixel (0, 1) of the fixture is
visible: 4 differs from 2. -/
theorem fixA_scale_changes : Val.mulQ (fixImgA.data 0 0 1) 2 ≠ fixImgA.data 0 0 1 := by
  norm_num [fixImgA, mkFix, Val.mulQ]

/-- Closed instance of `c10_apply_scale_factor_not_atomic`: scaling `"B1"` by
2 and then hitting the unknown alias `"zz"` raises, yet the receiver has
already been mutated. -/
theorem c10_apply_scale_factor_not_atomic_witness :
    (apply_scale_factor fixA [("B1", 2), ("zz", 3)]).1 = some .valueError ∧
    (apply_scale_factor fixA [("B1", 2), ("zz", 3)]).2 ≠ fixA := by
  have h := c10_apply_scale_factor_not_atomic fixA fixImgA "B1" "zz" 2 3 rfl
    (by decide) (by decide)
  exact ⟨h.1, h.2.2 0 0 1 rfl fixA_scale_changes⟩

/-- C1: on a loaded image whose band-0 plane contains zeros,
`change_nodata(new_nodata=NaN, old_nodata=0)` succeeds, sets the nodata
metadata to NaN, overwrites every band with NaN exactly at the pixels whose
band-0 sample equals 0, and leaves every other sample of every band
unchanged. -/
theorem c1_change_nodata_zero_to_nan (s : SatImage) (img : RasterImage)
    (hs : s.image = some img)
    (_hz : ∃ y x, y < img.rows ∧ x < img.cols ∧ img.data 0 y x = Val.num 0) :
    (change_nodata s Val.nan (.single (Val.num 0))).1 = none ∧
    ∃ img2, (change_nodata s Val.nan (.single (Val.num 0))).2.image = some img2 ∧
      img2.nodata = some Val.nan ∧
      (∀ b y x, img.data 0 y x = Val.num 0 → img2.data b y x = Val.nan) ∧
      (∀ b y x, img.data 0 y x ≠ Val.num 0 → img2.data b y x = img.data b y x) := by
  refine ⟨?_,
    ⟨cnApply img (fun y x => true && Val.ieeeNe (img.data 0 y x) (Val.num 0)) Val.nan,
      ?_, rfl, ?_, ?_⟩⟩
  · simp [change_nodata, hs, NodataArg.normalize, changeNodataAoi, Val.isnan]
  · simp [change_nodata, hs, NodataArg.normalize, changeNodataAoi, Val.isnan, add_log]
  · intro b y x h0
    simp [cnApply, h0, Val.ieeeNe]
  · intro b y x h0
    have hne : Val.ieeeNe (img.data 0 y x) (Val.num 0) = true := by
      cases him : img.data 0 y x with
      | nan => simp [Val.ieeeNe]
      | num q =>
          rw [him] at h0
          have hq : q ≠ 0 := fun hq => h0 (by rw [hq])
          simp [Val.ieeeNe, hq]
    simp [cnApply, hne]

/-- Closed instance of `c1_change_nodata_zero_to_nan` on the 2-band fixture
whose band-0 zero sits at pixel (0, 0). -/
theorem c1_change_nodata_zero_to_nan_witness :
    (change_nodata fixA Val.nan (.single (Val.num 0))).1 = none ∧
    ∃ img2, (change_nodata fixA Val.nan (.single (Val.num 0))).2.image = some img2 ∧
      img2.nodata = some Val.nan ∧
      (∀ b y x, fixImgA.data 0 y x = Val.num 0 → img2.data b y x = Val.nan) ∧
      (∀ b y x, fixImgA.data 0 y x ≠ Val.num 0 → img2.data b y x = fixImgA.data b y x) :=
  c1_change_nodata_zero_to_nan fixA fixImgA rfl ⟨0, 0, by decide, by decide, by decide⟩

/-- C8 (amended): when the input list leaves exactly one non-empty
processor after filtering, the body of `merge` evaluates to that
processor's underlying raster array object - not a processor - with the
receiver untouched, but the `@typechecked` enforcement of the `-> Self`
return annotation then raises `TypeCheckError`, so the caller never
receives the array (and the receiver, never reassigned on that path, keeps
its image and log); when every input is empty `merge` returns a fresh empty
processor - a processor instance, passing the return check - again leaving
the receiver untouched. -/
theorem c8_merge_single_raises_typecheck (rm : RasterImage → RasterImage → RasterImage)
    (self : SatImage) (dtype : String) (nd : Val) :
    (∀ l img, l.filterMap (fun si => si.image) = [img] →
      mergeBody rm self l none dtype nd = .ok (.dataArray img, self) ∧
      merge rm self l none dtype nd = .error .typeCheckError) ∧
    (∀ l, l.filterMap (fun si => si.image) = [] →
      merge rm self l none dtype nd = .ok (.satimage SatImage.mk0, self)) := by
  constructor
  · intro l img h
    constructor
    · simp [mergeBody, h]
    · simp [merge, mergeBody, h]
  · intro l h
    simp [merge, mergeBody, h]

/-- Closed instance of `c8_merge_single_raises_typecheck`: one empty and one
loaded input make the body produce the loaded raster array with the receiver
unchanged while the call raises `TypeCheckError`; a single empty input
yields a fresh empty processor with the receiver returned unchanged. -/
theorem c8_merge_single_raises_typecheck_witness :
    (mergeBody (fun i _ => i) fixA [SatImage.mk0, fixB] none "float32" Val.nan =
      .ok (.dataArray fixImgB, fixA) ∧
    merge (fun i _ => i) fixA [SatImage.mk0, fixB] none "float32" Val.nan =
      .error .typeCheckError) ∧
    merge (fun i _ => i) fixA [SatImage.mk0] none "float32" Val.nan =
      .ok (.satimage SatImage.mk0, fixA) :=
  ⟨(c8_merge_single_raises_typecheck (fun i _ => i) fixA "float32" Val.nan).1
      [SatImage.mk0, fixB] fixImgB rfl,
   (c8_merge_single_raises_typecheck (fun i _ => i) fixA "float32" Val.nan).2
      [SatImage.mk0] rfl⟩

/-- C8 counterexample: the claim as stated says `merge` on a list with
exactly one non-empty processor returns that processor's underlying raster
array object.  At this concrete input the call instead raises typeguard's
`TypeCheckError` (the `return images[0]` of the body violates the `-> Self`
annotation), so no raster array is ever returned. -/
theorem c8_counterexample :
    merge (fun i _ => i) fixA [SatImage.mk0, fixB] none "float32" Val.nan =
      .error .typeCheckError ∧
    ∀ r, merge (fun i _ => i) fixA [SatImage.mk0, fixB] none "float32" Val.nan ≠
      .ok (.dataArray fixImgB, r) := by
  refine ⟨rfl, ?_⟩
  intro r h
  rw [show merge (fun i _ => i) fixA [SatImage.mk0, fixB] none "float32" Val.nan =
    .error .typeCheckError from rfl] at h
  exact Except.noConfusion h

/-- C3: merging two single-band non-empty processors over the same grid (the
collaborator reprojection onto the first image's grid being the identity for
both) with distinct aliases yields a 2-band raster carrying both aliases,
band 0 holding the first input's samples and band 1 the second's, unaltered
at every pixel; with equal aliases the merge raises `ValueError`. -/
theorem c3_merge_two_single_band (rm : RasterImage → RasterImage → RasterImage)
    (self p1 p2 : SatImage) (i1 i2 : RasterImage) (a b : String)
    (dtype : String) (nd : Val)
    (h1 : p1.image = some i1) (h2 : p2.image = some i2)
    (hn1 : i1.nbands = 1) (hn2 : i2.nbands = 1)
    (ha1 : i1.bandAlias = [a]) (ha2 : i2.bandAlias = [b])
    (hrm1 : rm i1 i1 = i1) (hrm2 : rm i2 i1 = i2) :
    (a ≠ b →
      ∃ s3 m, merge rm self [p1, p2] none dtype nd = .ok (.satimage s3, s3) ∧
        s3.image = some m ∧ m.nbands = 2 ∧ m.bandAlias = [a, b] ∧
        ∀ y x, m.data 0 y x = i1.data 0 y x ∧ m.data 1 y x = i2.data 0 y x) ∧
    (a = b → merge rm self [p1, p2] none dtype nd = .error .valueError) := by
  have hfm : [p1, p2].filterMap (fun si => si.image) = [i1, i2] := by simp [h1, h2]
  have hp1 : imagePlanes (rm i1 i1) = [(a, fun y x => i1.data 0 y x)] := by
    rw [hrm1]
    simp only [imagePlanes, hn1, ha1]
    rfl
  have hp2 : imagePlanes (rm i2 i1) = [(b, fun y x => i2.data 0 y x)] := by
    rw [hrm2]
    simp only [imagePlanes, hn2, ha2]
    rfl
  constructor
  · intro hab
    have hcb : collectBands rm i1 dtype [i1, i2] [] =
        .ok [(a, fun y x => i1.data 0 y x), (b, fun y x => i2.data 0 y x)] := by
      simp [collectBands, hp1, hp2, collectLoop, hab, Ne.symm hab]
    obtain ⟨s3, key, him⟩ :
        ∃ s3, merge rm self [p1, p2] none dtype nd = .ok (.satimage s3, s3) ∧
          s3.image = some
            { mergedImage [(a, fun y x => i1.data 0 y x), (b, fun y x => i2.data 0 y x)]
                i1 dtype with bandAlias := [a, b] } := by
      simp only [merge, mergeBody, hfm, Option.getD_none, hcb, set_band_alias, mergedImage]
      exact ⟨_, rfl, rfl⟩
    exact ⟨s3,
      { mergedImage [(a, fun y x => i1.data 0 y x), (b, fun y x => i2.data 0 y x)]
          i1 dtype with bandAlias := [a, b] },
      key, him, rfl, rfl, fun y x => ⟨rfl, rfl⟩⟩
  · intro hab
    have hcb : collectBands rm i1 dtype [i1, i2] [] = .error .valueError := by
      simp [collectBands, hp1, hp2, collectLoop, hab]
    simp [merge, mergeBody, hfm, Option.getD_none, hcb]

/-- Closed instance of `c3_merge_two_single_band` on two 1x1 single-band
fixtures over the same grid. -/
theorem c3_merge_two_single_band_witness :
    (∃ s3 m, merge (fun i _ => i) SatImage.mk0 [fixB, fixC] none "float32" Val.nan =
        .ok (.satimage s3, s3) ∧
      s3.image = some m ∧ m.nbands = 2 ∧ m.bandAlias = ["a", "b"] ∧
      ∀ y x, m.data 0 y x = fixImgB.data 0 y x ∧ m.data 1 y x = fixImgC.data 0 y x) ∧
    merge (fun i _ => i) SatImage.mk0 [fixB, fixB] none "float32" Val.nan =
      .error .valueError :=
  ⟨(c3_merge_two_single_band (fun i _ => i) SatImage.mk0 fixB fixC fixImgB fixImgC "a" "b"
      "float32" Val.nan rfl rfl rfl rfl rfl rfl rfl rfl).1 (by decide),
   (c3_merge_two_single_band (fun i _ => i) SatImage.mk0 fixB fixB fixImgB fixImgB "a" "a"
      "float32" Val.nan rfl rfl rfl rfl rfl rfl rfl rfl).2 rfl⟩

/-- One run of `generate_backboneH`: the returned processor references the
source's log object, the source's log view gains exactly the
`generate_backbone` record, and the heap grows by the one list allocated for
the discarded fresh log. -/
theorem generate_backboneH_run (σ : Store) (src : HSatImage) (img : RasterImage)
    (n : ℕ) (dt : String) (fv nd : Val)
    (hs : src.image = some img) (hcrs : img.crs.isSome = true)
    (href : src.logRef < σ.next) :
    generate_backboneH σ src n dt fv nd =
      .ok ({ image := some (gbRaster img (if n = 0 then img.nbands else n) dt fv nd),
             logRef := src.logRef, time := none },
        ((σ.alloc [initEntry]).2.push (σ.alloc [initEntry]).1
            { action := "read_tif", params := [("file", .str "rioxarray object")] }).push
          src.logRef (gbEntry (if n = 0 then img.nbands else n) dt fv nd)) ∧
    (((σ.alloc [initEntry]).2.push (σ.alloc [initEntry]).1
          { action := "read_tif", params := [("file", .str "rioxarray object")] }).push
        src.logRef (gbEntry (if n = 0 then img.nbands else n) dt fv nd)).logs src.logRef =
      σ.logs src.logRef ++ [gbEntry (if n = 0 then img.nbands else n) dt fv nd] ∧
    (((σ.alloc [initEntry]).2.push (σ.alloc [initEntry]).1
          { action := "read_tif", params := [("file", .str "rioxarray object")] }).push
        src.logRef (gbEntry (if n = 0 then img.nbands else n) dt fv nd)).next = σ.next + 1 := by
  have hne : src.logRef ≠ σ.next := Nat.ne_of_lt href
  have hchk : checkFormatB (gbRaster img (if n = 0 then img.nbands else n) dt fv nd) = true := by
    simp [checkFormatB, gbRaster, hcrs]
  refine ⟨?_, ?_, ?_⟩
  · simp [generate_backboneH, hs, initH, read_tifH, hchk, set_logH, add_logH, Store.alloc]
  · simp [Store.push, Store.alloc, hne]
  · simp [Store.push, Store.alloc]

/-- Appending to a list object is visible through its reference. -/
theorem Store.push_logs_self (σ : Store) (r : ℕ) (e : LogEntry) :
    (σ.push r e).logs r = σ.logs r ++ [e] := by
  simp [Store.push]

/-- Appending never allocates. -/
theorem Store.push_next (σ : Store) (r : ℕ) (e : LogEntry) :
    (σ.push r e).next = σ.next := rfl

/-- Existential form of `generate_backboneH_run`. -/
theorem generate_backboneH_spec (σ : Store) (src : HSatImage) (img : RasterImage)
    (n : ℕ) (dt : String) (fv nd : Val)
    (hs : src.image = some img) (hcrs : img.crs.isSome = true)
    (href : src.logRef < σ.next) :
    ∃ σ2, generate_backboneH σ src n dt fv nd =
        .ok ({ image := some (gbRaster img (if n = 0 then img.nbands else n) dt fv nd),
               logRef := src.logRef, time := none }, σ2) ∧
      σ2.logs src.logRef =
        σ.logs src.logRef ++ [gbEntry (if n = 0 then img.nbands else n) dt fv nd] ∧
      σ2.next = σ.next + 1 :=
  ⟨_, (generate_backboneH_run σ src img n dt fv nd hs hcrs href).1,
    (generate_backboneH_run σ src img n dt fv nd hs hcrs href).2.1,
    (generate_backboneH_run σ src img n dt fv nd hs hcrs href).2.2⟩

/-- The generator loop of `calculate_index` always succeeds on a valid
source, every yielded processor shares the source's log object, and the
records of every iteration land in the source's log view. -/
theorem calcIndexLoop_spec (src : HSatImage) (img : RasterImage)
    (hs : src.image = some img) (hcrs : img.crs.isSome = true) :
    ∀ (eqs : List (String × ExprFn)) (σ : Store), src.logRef < σ.next →
      ∃ out σf, calcIndexLoop σ src img eqs = .ok (out, σf) ∧
        σf.next = σ.next + eqs.length ∧
        σf.logs src.logRef = σ.logs src.logRef ++ calcEntries eqs ∧
        ∀ p ∈ out, p.logRef = src.logRef := by
  intro eqs
  induction eqs with
  | nil =>
      intro σ href
      exact ⟨[], σ, rfl, by simp, by simp [calcEntries], by simp⟩
  | cons pr rest ih =>
      obtain ⟨a, ef⟩ := pr
      intro σ href
      obtain ⟨σ2, hgb, hlog2, hnext2⟩ :=
        generate_backboneH_spec σ src img 1 "float32" Val.nan Val.nan hs hcrs href
      have hif : (if (1 : ℕ) = 0 then img.nbands else 1) = 1 := rfl
      rw [hif] at hgb hlog2
      obtain ⟨out, σf, hloop, hnextf, hlogf, hrefs⟩ :=
        ih ((σ2.push src.logRef (calcEntry a)).push src.logRef (sbaEntry [a]))
          (by rw [Store.push_next, Store.push_next, hnext2]; exact Nat.lt_succ_of_lt href)
      obtain ⟨s2, hrun, hs2ref⟩ :
          ∃ s2, calcIndexLoop σ src img ((a, ef) :: rest) = .ok (s2 :: out, σf) ∧
            s2.logRef = src.logRef := by
        simp only [calcIndexLoop, hgb]
        simp only [set_band_aliasH, add_logH, Option.map, gbRaster]
        simp only [List.length_singleton]
        rw [if_neg (by simp)]
        simp only [hloop]
        exact ⟨_, rfl, rfl⟩
      refine ⟨s2 :: out, σf, hrun, ?_, ?_, ?_⟩
      · rw [hnextf, Store.push_next, Store.push_next, hnext2]
        simp [List.length_cons]
        omega
      · rw [hlogf, Store.push_logs_self, Store.push_logs_self, hlog2]
        simp [calcEntries, List.flatMap_cons, List.append_assoc]
      · intro p hp
        rcases List.mem_cons.mp hp with h | h
        · rw [h, hs2ref]
        · exact hrefs p h

/-- C9: `generate_backbone` returns a processor whose log is the very same
list object as the source's (`set_log(self.log)` shares, it does not copy):
the returned reference equals the source's, the `generate_backbone` record
lands in the source's log view, any record later appended through the
backbone appears in the source's log view too, and every processor yielded
by `calculate_index` - whose backbones are produced the same way - also
references the source's log object, with all their appends visible there. -/
theorem c9_generate_backbone_shares_log (σ : Store) (src : HSatImage) (img : RasterImage)
    (n : ℕ) (dt : String) (fv nd : Val)
    (hs : src.image = some img) (hcrs : img.crs.isSome = true)
    (href : src.logRef < σ.next) :
    (∃ bb σ2, generate_backboneH σ src n dt fv nd = .ok (bb, σ2) ∧
      bb.logRef = src.logRef ∧
      σ2.logs src.logRef =
        σ.logs src.logRef ++ [gbEntry (if n = 0 then img.nbands else n) dt fv nd] ∧
      ∀ e, (add_logH σ2 bb e).logs src.logRef = σ2.logs src.logRef ++ [e]) ∧
    ∀ eqs, ∃ out σf, calculate_indexH σ src eqs = .ok (out, σf) ∧
      σf.logs src.logRef = σ.logs src.logRef ++ calcEntries eqs ∧
      ∀ p ∈ out, p.logRef = src.logRef ∧
        ∀ e, (add_logH σf p e).logs src.logRef = σf.logs src.logRef ++ [e] := by
  constructor
  · obtain ⟨σ2, heq, hlog, _⟩ := generate_backboneH_spec σ src img n dt fv nd hs hcrs href
    refine ⟨_, σ2, heq, rfl, hlog, ?_⟩
    intro e
    simp only [add_logH]
    exact Store.push_logs_self σ2 src.logRef e
  · intro eqs
    obtain ⟨out, σf, hloop, _, hlogf, hrefs⟩ := calcIndexLoop_spec src img hs hcrs eqs σ href
    refine ⟨out, σf, ?_, hlogf, ?_⟩
    · simp [calculate_indexH, hs, hloop]
    · intro p hp
      refine ⟨hrefs p hp, fun e => ?_⟩
      simp only [add_logH]
      rw [hrefs p hp]
      exact Store.push_logs_self σf src.logRef e

/-- Closed instance of `c9_generate_backbone_shares_log` on the heap fixture
(reference 0 live, one band-math equation). -/
theorem c9_generate_backbone_shares_log_witness :
    (∃ bb σ2, generate_backboneH fixStore fixHSrc 0 "float32" (Val.num 0) Val.nan =
        .ok (bb, σ2) ∧
      bb.logRef = fixHSrc.logRef ∧
      σ2.logs fixHSrc.logRef = fixStore.logs fixHSrc.logRef ++
        [gbEntry (if (0 : ℕ) = 0 then fixImgA.nbands else 0) "float32" (Val.num 0) Val.nan] ∧
      ∀ e, (add_logH σ2 bb e).logs fixHSrc.logRef = σ2.logs fixHSrc.logRef ++ [e]) ∧
    ∀ eqs, ∃ out σf, calculate_indexH fixStore fixHSrc eqs = .ok (out, σf) ∧
      σf.logs fixHSrc.logRef = fixStore.logs fixHSrc.logRef ++ calcEntries eqs ∧
      ∀ p ∈ out, p.logRef = fixHSrc.logRef ∧
        ∀ e, (add_logH σf p e).logs fixHSrc.logRef = σf.logs fixHSrc.logRef ++ [e] :=
  c9_generate_backbone_shares_log fixStore fixHSrc fixImgA 0 "float32" (Val.num 0) Val.nan
    rfl rfl (by decide)

/-- Adding the zero offset is the identity on samples (NaN included). -/
theorem val_add_zero (v : Val) : Val.add v (Val.num 0) = v := by
  cases v <;> simp [Val.add]

/-- The numeric difference of a sample with itself is zero. -/
theorem val_sub_self_num (m : ℚ) : Val.sub (Val.num m) (Val.num m) = Val.num 0 := by
  simp [Val.sub]

/-- `np.interp` evaluated exactly at the last of two increasing sample
points returns the last table value. -/
theorem npInterpV_last (t0 t1 : ℚ) (f0 f1 : Val) (hlt : t0 < t1) :
    npInterpV t1 [t0, t1] [f0, f1] = f1 := by
  rw [npInterpV]
  rw [if_neg (not_le.mpr hlt), if_neg (lt_irrefl t1)]
  rfl

/-- A pass of `applyOffsets` whose per-label offsets are all the numeric
zero leaves every sample of every band unchanged. -/
theorem applyOffsets_zero (dst base : String → Val) :
    ∀ (aliases : List String), (∀ a ∈ aliases, Val.sub (dst a) (base a) = Val.num 0) →
      ∀ (img : RasterImage) (b y x : ℕ),
        (applyOffsets aliases dst base img).data b y x = img.data b y x := by
  intro aliases
  induction aliases with
  | nil => intro _ img b y x; rfl
  | cons a rest ih =>
      intro h img b y x
      have hstep : ∀ b2 y2 x2,
          (applyOffsetBand dst base img a).data b2 y2 x2 = img.data b2 y2 x2 := by
        intro b2 y2 x2
        simp only [applyOffsetBand, h a (List.mem_cons_self a rest), val_add_zero]
        split <;> rfl
      have hrw : applyOffsets (a :: rest) dst base img =
          applyOffsets rest dst base (applyOffsetBand dst base img a) := rfl
      rw [hrw, ih (fun a2 ha2 => h a2 (List.mem_cons_of_mem _ ha2))]
      exact hstep b y x

/-- The band sample list over the AOI has as many entries as the AOI has
pixels. -/
theorem bandVals_length (img : RasterImage) (bi : ℕ) :
    (bandVals img bi).length = aoiCount img := by
  simp [bandVals, aoiCount]

/-- On a non-empty AOI free of NaN samples, the band mean is a number. -/
theorem bandMeanVal_num (img : RasterImage) (bi : ℕ) (hc : aoiCount img ≠ 0)
    (hn : Val.nan ∉ bandVals img bi) : ∃ m, bandMeanVal img bi = Val.num m := by
  unfold bandMeanVal
  rw [if_neg (by simpa using hn), if_neg (by rw [bandVals_length]; exact hc)]
  exact ⟨_, rfl⟩

/-- Deduplicating a two-element repetition. -/
theorem dedup_pair {α : Type} [DecidableEq α] (a : α) : ([a, a] : List α).dedup = [a] := by
  have h1d : ([a] : List α).dedup = [a] := by
    rw [List.dedup_cons_of_not_mem (by simp [List.dedup_nil]), List.dedup_nil]
  rw [List.dedup_cons_of_mem (List.mem_singleton_self a), h1d]

/-- C2 (amended): with two inputs sharing band labels and element type,
timestamps `t0 < t1`, a valid latest raster, both AOIs non-empty and no NaN
sample of the latest image inside its AOI, `interp_image` at the target
`t1` returns exactly one image, and every sample of every band equals the
corresponding sample of the `t1` input: the interpolated per-band mean at
`t1` is the `t1` image's own mean, so the added offset is the numeric
zero. -/
theorem c2_interp_to_latest_time (p0 p1 : SatImage) (i0 i1 : RasterImage) (t0 t1 : ℚ)
    (h0 : p0.image = some i0) (h1 : p1.image = some i1)
    (ht0 : p0.time = some t0) (ht1 : p1.time = some t1) (hlt : t0 < t1)
    (hba : i0.bandAlias = i1.bandAlias) (hdt : i0.dtype = i1.dtype)
    (hdims : i1.dims = ["band", "y", "x"]) (hcrs : i1.crs.isSome = true)
    (_hlen : i1.bandAlias.length = i1.nbands) (_hnodup : i1.bandAlias.Nodup)
    (hc0 : aoiCount i0 ≠ 0) (hc1 : aoiCount i1 ≠ 0)
    (hnn : ∀ al ∈ i1.bandAlias, Val.nan ∉ bandVals i1 (i1.bandAlias.indexOf al)) :
    ∃ out, interp_image [p0, p1] [t1] = .ok [out] ∧
      ∃ m, out.image = some m ∧ ∀ b y x, m.data b y x = i1.data b y x := by
  have hsort : List.insertionSort timeLe [p0, p1] = [p0, p1] := by
    simp [List.insertionSort, List.orderedInsert, timeLe, ht0, ht1, le_of_lt hlt]
  have hmap : mapME getImg [p0, p1] = .ok [i0, i1] := by
    simp [mapME, getImg, h0, h1]
  have hchk : checkFormatB i1 = true := by simp [checkFormatB, hdims, hcrs]
  have hstats : ∀ (i : RasterImage), aoiCount i ≠ 0 →
      imageStats i = .ok (fun a => bandMeanVal i (i.bandAlias.indexOf a)) := by
    intro i hc
    simp [imageStats, hc]
  have hcopy : SatImage.copy p1 =
      .ok { image := some i1, log := p1.log ++ [{ action := "copy" }], time := none } := by
    simp [SatImage.copy, h1, hchk]
  obtain ⟨out, hout, him⟩ :
      ∃ out, interp_image [p0, p1] [t1] = .ok [out] ∧
        out.image = some (applyOffsets i1.bandAlias
          (fun a => npInterpV t1 [t0, t1]
            [bandMeanVal i0 (i1.bandAlias.indexOf a), bandMeanVal i1 (i1.bandAlias.indexOf a)])
          (fun a => bandMeanVal i1 (i1.bandAlias.indexOf a)) i1) := by
    simp only [interp_image]
    rw [if_neg (by simp [ht0, ht1])]
    rw [hsort]
    simp only [hmap, List.map_cons, List.map_nil, hba, hdt, ht0, ht1]
    rw [if_neg (by rw [dedup_pair]; simp)]
    rw [if_neg (by rw [dedup_pair]; simp)]
    rw [if_neg (by simp)]
    simp only [hstats i0 hc0, hstats i1 hc1, hba, mapME, makeTarget, hcopy,
      List.headD_cons, List.getLastD_cons, List.getLastD_nil, Option.getD_some,
      List.map_cons, List.map_nil]
    exact ⟨_, rfl, rfl⟩
  refine ⟨out, hout, _, him, ?_⟩
  intro b y x
  apply applyOffsets_zero
  intro al hal
  rw [npInterpV_last _ _ _ _ hlt]
  obtain ⟨m, hm⟩ := bandMeanVal_num i1 (i1.bandAlias.indexOf al) hc1 (hnn al hal)
  rw [hm]
  exact val_sub_self_num m

/-- Closed instance of `c2_interp_to_latest_time` on two 1x1 single-band
inputs (samples 5 and 9, nodata 0) at times 0 and 1. -/
theorem c2_interp_to_latest_time_witness :
    ∃ out, interp_image [fixT0, fixT1] [1] = .ok [out] ∧
      ∃ m, out.image = some m ∧ ∀ b y x, m.data b y x = fixImgT1.data b y x :=
  c2_interp_to_latest_time fixT0 fixT1 fixImgT0 fixImgT1 0 1 rfl rfl rfl rfl (by decide)
    rfl rfl rfl rfl rfl (by decide) (by decide) (by decide) (by decide)

/-- C2 counterexample: the claim as stated quantifies over every pair of
inputs with identical band labels, identical pixel type and `t0 < t1`; on
inputs whose band-0 plane is entirely nodata the statistics pass raises
instead (`np.min` of the empty AOI restriction is a zero-size reduction), so
`interp_image` returns no image at all. -/
theorem c2_counterexample :
    interp_image [cxP0, cxP1] [1] = .error .valueError ∧
    ∀ outs, interp_image [cxP0, cxP1] [1] ≠ .ok outs := by
  refine ⟨rfl, ?_⟩
  intro outs h
  rw [show interp_image [cxP0, cxP1] [1] = .error .valueError from rfl] at h
  exact Except.noConfusion h
